import Mathlib

/-!
Shallow embedding of `src/chaincode/smartcontract.go`, a Hyperledger Fabric
chaincode managing `Asset` records in a key-value world state.

* `Asset` mirrors the Go struct with its five fields.
* `Json` / `Bytes` model the payloads handled by `encoding/json`:
  `Bytes.json j` is a byte sequence that parses as the JSON value `j`,
  `Bytes.invalid s` is a byte sequence that is not valid JSON.
* `marshalAsset` / `unmarshalAsset` model `json.Marshal` / `json.Unmarshal`
  at type `Asset`: unmarshalling tolerates missing and unknown object keys
  (missing fields keep their zero values, as in Go), accepts a top-level
  `null` as a no-op, and fails on mis-typed fields and non-object top-level
  values.
* `Store` is the world state: an association list kept sorted by key, so
  that its list order is the store's native key order used by range scans.
* Each contract method becomes a function `Store → Bytes → Outcome α`
  returning the Go result/error pair, the post-state, and the trace of
  stub calls (`GetState` / `PutState` / `DelState` / `GetStateByRange`)
  the method performed.
-/

namespace Chaincode

/-- JSON values, as produced by parsing a byte sequence. -/
inductive Json where
  | null : Json
  | bool (b : Bool) : Json
  | num (n : Int) : Json
  | str (s : String) : Json
  | arr (xs : List Json) : Json
  | obj (fields : List (String × Json)) : Json

/-- A byte sequence: either it parses as a JSON value or it is malformed. -/
inductive Bytes where
  | json (j : Json) : Bytes
  | invalid (raw : String) : Bytes

/-- The Go struct `Asset` from `smartcontract.go` (json tags
`asset_id`, `color`, `size`, `owner`, `appraisedValue`). -/
structure Asset where
  ID : String
  Color : String
  Size : Int
  Owner : String
  AppraisedValue : Int
deriving DecidableEq, Repr

/-- The error taxonomy of the contract: `json.Unmarshal` failures,
"the asset %s already exists", "the asset %s does not exist". -/
inductive Err where
  | decodeError : Err
  | alreadyExists (id : String) : Err
  | notFound (id : String) : Err
deriving DecidableEq, Repr

/-- Go's zero value of the `Asset` struct (`var asset Asset`). -/
def zeroAsset : Asset := ⟨"", "", 0, "", 0⟩

/-- `json.Unmarshal` handling of one object entry when decoding into
`Asset`: known keys require the matching JSON type (`null` is a no-op),
unknown keys are ignored. -/
def setField (a : Asset) (k : String) (v : Json) : Except Err Asset :=
  if k = "asset_id" then
    match v with
    | .str s => .ok { a with ID := s }
    | .null => .ok a
    | _ => .error .decodeError
  else if k = "color" then
    match v with
    | .str s => .ok { a with Color := s }
    | .null => .ok a
    | _ => .error .decodeError
  else if k = "size" then
    match v with
    | .num n => .ok { a with Size := n }
    | .null => .ok a
    | _ => .error .decodeError
  else if k = "owner" then
    match v with
    | .str s => .ok { a with Owner := s }
    | .null => .ok a
    | _ => .error .decodeError
  else if k = "appraisedValue" then
    match v with
    | .num n => .ok { a with AppraisedValue := n }
    | .null => .ok a
    | _ => .error .decodeError
  else
    .ok a

/-- Process the entries of a JSON object in order (later duplicates
overwrite earlier ones, as in Go). -/
def unmarshalFields (a : Asset) : List (String × Json) → Except Err Asset
  | [] => .ok a
  | (k, v) :: rest =>
    match setField a k v with
    | .ok a' => unmarshalFields a' rest
    | .error e => .error e

/-- `json.Unmarshal(bytes, &asset)`: fails on malformed bytes and on
top-level values other than an object or `null`; an object fills the
zero-valued struct field by field. -/
def unmarshalAsset : Bytes → Except Err Asset
  | .invalid _ => .error .decodeError
  | .json .null => .ok zeroAsset
  | .json (.obj fs) => unmarshalFields zeroAsset fs
  | .json _ => .error .decodeError

/-- `json.Marshal(asset)`: never fails for this struct. -/
def marshalAsset (a : Asset) : Bytes :=
  .json (.obj [("asset_id", .str a.ID), ("color", .str a.Color),
    ("size", .num a.Size), ("owner", .str a.Owner),
    ("appraisedValue", .num a.AppraisedValue)])

/-- The world state: key-value entries sorted by key (the store's native
key order, the order `GetStateByRange` delivers). -/
abbrev Store := List (String × Bytes)

/-- Lexicographic order on character sequences, by code point. -/
def charsLt : List Char → List Char → Bool
  | [], [] => false
  | [], _ :: _ => true
  | _ :: _, [] => false
  | c :: cs, d :: ds =>
    if c.toNat < d.toNat then true
    else if d.toNat < c.toNat then false
    else charsLt cs ds

/-- The store's native key order: lexicographic byte order on keys (for
UTF-8 encoded keys this is lexicographic code-point order). -/
def keyLt (a b : String) : Bool := charsLt a.toList b.toList

/-- `GetState k`: the stored value, or `none` when the key is absent. -/
def getState : Store → String → Option Bytes
  | [], _ => none
  | (k', v) :: rest, k => if k = k' then some v else getState rest k

/-- `PutState k v`: unconditional overwrite, keeping the list sorted. -/
def putState : Store → String → Bytes → Store
  | [], k, v => [(k, v)]
  | (k', v') :: rest, k, v =>
    if keyLt k k' then (k, v) :: (k', v') :: rest
    else if k = k' then (k, v) :: rest
    else (k', v') :: putState rest k v

/-- `DelState k`: removes the key; deleting an absent key is a no-op. -/
def delState : Store → String → Store
  | [], _ => []
  | (k', v) :: rest, k => if k = k' then rest else (k', v) :: delState rest k

/-- One stub call, for tracing which store accesses a method performs. -/
inductive StoreOp where
  | get (k : String) : StoreOp
  | put (k : String) (v : Bytes) : StoreOp
  | del (k : String) : StoreOp
  | range : StoreOp

/-- Result of one contract-method invocation: the Go return value or
error, the world state afterwards, and the trace of stub calls made. -/
structure Outcome (α : Type) where
  res : Except Err α
  store : Store
  trace : List StoreOp

/-- The fixed seed set written by `InitLedger`. -/
def seedAssets : List Asset :=
  [⟨"asset1", "blue", 5, "Tomoko", 300⟩,
   ⟨"asset2", "red", 5, "Brad", 400⟩,
   ⟨"asset3", "green", 10, "Jin Soo", 500⟩,
   ⟨"asset4", "yellow", 10, "Max", 600⟩,
   ⟨"asset5", "black", 15, "Adriana", 700⟩,
   ⟨"asset6", "white", 15, "Michel", 800⟩]

/-- `InitLedger`: marshals and puts each seed asset in turn; neither
`json.Marshal` nor the in-memory store fails. -/
def InitLedger (st : Store) : Outcome Unit :=
  ⟨.ok (),
   seedAssets.foldl (fun s a => putState s a.ID (marshalAsset a)) st,
   seedAssets.map (fun a => .put a.ID (marshalAsset a))⟩

/-- `AssetExists`: a bare `GetState`; existence is `value != nil`. -/
def AssetExists (st : Store) (id : String) : Outcome Bool :=
  ⟨.ok (getState st id).isSome, st, [.get id]⟩

/-- `CreateAsset`: unmarshal the request, fail if the id already exists,
otherwise marshal and put. -/
def CreateAsset (st : Store) (raw : Bytes) : Outcome String :=
  match unmarshalAsset raw with
  | .error e => ⟨.error e, st, []⟩
  | .ok req =>
    if (getState st req.ID).isSome then
      ⟨.error (.alreadyExists req.ID), st, [.get req.ID]⟩
    else
      ⟨.ok "CreateAsset OK",
       putState st req.ID (marshalAsset req),
       [.get req.ID, .put req.ID (marshalAsset req)]⟩

/-- `ReadAsset`: unmarshal the request, get the stored bytes, unmarshal
them into the returned asset. -/
def ReadAsset (st : Store) (raw : Bytes) : Outcome Asset :=
  match unmarshalAsset raw with
  | .error e => ⟨.error e, st, []⟩
  | .ok req =>
    match getState st req.ID with
    | none => ⟨.error (.notFound req.ID), st, [.get req.ID]⟩
    | some b =>
      match unmarshalAsset b with
      | .error e => ⟨.error e, st, [.get req.ID]⟩
      | .ok a => ⟨.ok a, st, [.get req.ID]⟩

/-- `UpdateAsset`: unmarshal the request, require the id to exist, then
marshal the full request and put (full replace). -/
def UpdateAsset (st : Store) (raw : Bytes) : Outcome String :=
  match unmarshalAsset raw with
  | .error e => ⟨.error e, st, []⟩
  | .ok req =>
    if (getState st req.ID).isSome then
      ⟨.ok "UpdateAsset OK",
       putState st req.ID (marshalAsset req),
       [.get req.ID, .put req.ID (marshalAsset req)]⟩
    else
      ⟨.error (.notFound req.ID), st, [.get req.ID]⟩

/-- `DeleteAsset`: unmarshal the request, require the id to exist, then
delete; returns the literal status string `"CreateAsset OK"` as in the
source. -/
def DeleteAsset (st : Store) (raw : Bytes) : Outcome String :=
  match unmarshalAsset raw with
  | .error e => ⟨.error e, st, []⟩
  | .ok req =>
    if (getState st req.ID).isSome then
      ⟨.ok "CreateAsset OK", delState st req.ID, [.get req.ID, .del req.ID]⟩
    else
      ⟨.error (.notFound req.ID), st, [.get req.ID]⟩

/-- `TransferAsset`: unmarshal the request, require the id to exist, call
`ReadAsset` on the same raw request, overwrite only `Owner` with the
request's owner, marshal and put. -/
def TransferAsset (st : Store) (raw : Bytes) : Outcome String :=
  match unmarshalAsset raw with
  | .error e => ⟨.error e, st, []⟩
  | .ok req =>
    if (getState st req.ID).isSome then
      let r := ReadAsset st raw
      match r.res with
      | .error e => ⟨.error e, st, .get req.ID :: r.trace⟩
      | .ok asset =>
        let asset' := { asset with Owner := req.Owner }
        ⟨.ok "TransferAsset OK",
         putState st req.ID (marshalAsset asset'),
         .get req.ID :: r.trace ++ [.put req.ID (marshalAsset asset')]⟩
    else
      ⟨.error (.notFound req.ID), st, [.get req.ID]⟩

/-- The loop body of `GetAllAssets`: walk the range-scan results in store
order, unmarshalling every value; the first failure aborts the listing. -/
def scanAssets : List (String × Bytes) → Except Err (List Asset)
  | [] => .ok []
  | (_, v) :: rest =>
    match unmarshalAsset v with
    | .error e => .error e
    | .ok a =>
      match scanAssets rest with
      | .error e => .error e
      | .ok tl => .ok (a :: tl)

/-- `GetAllAssets`: open-ended range scan (`GetStateByRange("", "")`) over
the whole namespace, decoding every stored value. -/
def GetAllAssets (st : Store) : Outcome (List Asset) :=
  ⟨scanAssets st, st, [.range]⟩

/-- The keys that `json.Unmarshal` fills from a JSON string. -/
def isStrField (k : String) : Bool :=
  k == "asset_id" || k == "color" || k == "owner"

/-- The keys that `json.Unmarshal` fills from a JSON number. -/
def isIntField (k : String) : Bool :=
  k == "size" || k == "appraisedValue"

/-- A mis-typed object entry: a known key whose value has the wrong JSON
type (`null` is never a mismatch, unknown keys are ignored). -/
def typeMismatch (k : String) (v : Json) : Bool :=
  match v with
  | .null => false
  | .str _ => isIntField k
  | .num _ => isStrField k
  | _ => isStrField k || isIntField k

/-- Top-level JSON values other than an object or `null`, which
`json.Unmarshal` rejects when decoding into a struct. -/
def topLevelBad : Json → Bool
  | .obj _ => false
  | .null => false
  | _ => true

/-- A trace containing no `PutState` and no `DelState` call. -/
def noWrites (tr : List StoreOp) : Bool :=
  tr.all fun op =>
    match op with
    | .put _ _ => false
    | .del _ => false
    | _ => true

/-- Every stored value unmarshals successfully as an `Asset`. -/
def WellFormedStore (st : Store) : Prop :=
  ∀ kv ∈ st, ∃ a, unmarshalAsset kv.2 = .ok a

/-- The first seed asset, used as a concrete test fixture. -/
def asset1Seed : Asset := ⟨"asset1", "blue", 5, "Tomoko", 300⟩

/-- A concrete create request payload for `asset1`. -/
def asset1Raw : Bytes :=
  Bytes.json (Json.obj [("asset_id", Json.str "asset1"), ("color", Json.str "blue"),
    ("size", Json.num 5), ("owner", Json.str "Tomoko"), ("appraisedValue", Json.num 300)])

/-- A concrete transfer request payload: `asset1` to owner `Bob`. -/
def transferBobRaw : Bytes :=
  Bytes.json (Json.obj [("asset_id", Json.str "asset1"), ("owner", Json.str "Bob")])

/-- A concrete request payload naming an id that was never created. -/
def ghostRaw : Bytes :=
  Bytes.json (Json.obj [("asset_id", Json.str "ghost")])

deriving instance DecidableEq for Except

/-! Helper lemmas about the store. -/

theorem getState_putState_self (st : Store) (k : String) (v : Bytes) :
    getState (putState st k v) k = some v := by
  induction st with
  | nil => simp [putState, getState]
  | cons hd tl ih =>
    obtain ⟨k', v'⟩ := hd
    by_cases h1 : keyLt k k' = true
    · simp [putState, h1, getState]
    · by_cases h2 : k = k'
      · subst h2
        simp [putState, h1, getState]
      · simp [putState, h1, h2, getState, ih]

theorem mem_putState {st : Store} {k : String} {v : Bytes} {kv : String × Bytes}
    (h : kv ∈ putState st k v) : kv = (k, v) ∨ kv ∈ st := by
  induction st with
  | nil => simpa [putState] using h
  | cons hd tl ih =>
    obtain ⟨k', v'⟩ := hd
    unfold putState at h
    by_cases h1 : keyLt k k' = true
    · rw [if_pos h1] at h
      rcases List.mem_cons.mp h with h | h
      · exact Or.inl h
      · exact Or.inr h
    · by_cases h2 : k = k'
      · rw [if_neg h1, if_pos h2] at h
        rcases List.mem_cons.mp h with h | h
        · exact Or.inl h
        · exact Or.inr (List.mem_cons_of_mem _ h)
      · rw [if_neg h1, if_neg h2] at h
        rcases List.mem_cons.mp h with h | h
        · exact Or.inr (h ▸ List.mem_cons_self _ _)
        · rcases ih h with h' | h'
          · exact Or.inl h'
          · exact Or.inr (List.mem_cons_of_mem _ h')

theorem mem_delState {st : Store} {k : String} {kv : String × Bytes}
    (h : kv ∈ delState st k) : kv ∈ st := by
  induction st with
  | nil => simp [delState] at h
  | cons hd tl ih =>
    obtain ⟨k', v'⟩ := hd
    by_cases h1 : k = k'
    · simp [delState, h1] at h
      simp [h]
    · simp [delState, h1] at h
      rcases h with h | h
      · simp [h]
      · simp [ih h]

theorem getState_mem {st : Store} {k : String} {b : Bytes}
    (h : getState st k = some b) : (k, b) ∈ st := by
  induction st with
  | nil => simp [getState] at h
  | cons hd tl ih =>
    obtain ⟨k', v'⟩ := hd
    by_cases h1 : k = k'
    · simp [getState, h1] at h
      simp [h1, h]
    · simp [getState, h1] at h
      simp [ih h]

/-! Helper lemmas about the codec. -/

theorem setField_error {a : Asset} {k : String} {v : Json} {e : Err}
    (h : setField a k v = .error e) : e = .decodeError := by
  unfold setField at h
  repeat' split at h
  all_goals simp_all

theorem unmarshalFields_error {fs : List (String × Json)} {a : Asset} {e : Err}
    (h : unmarshalFields a fs = .error e) : e = .decodeError := by
  induction fs generalizing a with
  | nil => simp [unmarshalFields] at h
  | cons hd tl ih =>
    obtain ⟨k, v⟩ := hd
    unfold unmarshalFields at h
    cases hsf : setField a k v with
    | ok a' =>
      rw [hsf] at h
      exact ih h
    | error e' =>
      rw [hsf] at h
      cases h
      exact setField_error hsf

theorem unmarshalAsset_error {raw : Bytes} {e : Err}
    (h : unmarshalAsset raw = .error e) : e = .decodeError := by
  cases raw with
  | invalid s =>
    simpa [unmarshalAsset] using h.symm
  | json j =>
    cases j with
    | obj fs => exact unmarshalFields_error (by simpa [unmarshalAsset] using h)
    | null => simp [unmarshalAsset] at h
    | bool b => simpa [unmarshalAsset] using h.symm
    | num n => simpa [unmarshalAsset] using h.symm
    | str s => simpa [unmarshalAsset] using h.symm
    | arr xs => simpa [unmarshalAsset] using h.symm

theorem unmarshal_marshal (a : Asset) : unmarshalAsset (marshalAsset a) = .ok a := by
  cases a
  rfl

theorem typeMismatch_setField (a : Asset) {k : String} {v : Json}
    (h : typeMismatch k v = true) : setField a k v = .error .decodeError := by
  cases v with
  | null => simp [typeMismatch] at h
  | str s =>
    simp [typeMismatch, isIntField] at h
    rcases h with h | h <;> subst h <;> rfl
  | num n =>
    simp [typeMismatch, isStrField] at h
    rcases h with (h | h) | h <;> subst h <;> rfl
  | bool b =>
    simp [typeMismatch, isStrField, isIntField] at h
    rcases h with ((h | h) | h) | (h | h) <;> subst h <;> rfl
  | arr xs =>
    simp [typeMismatch, isStrField, isIntField] at h
    rcases h with ((h | h) | h) | (h | h) <;> subst h <;> rfl
  | obj fs =>
    simp [typeMismatch, isStrField, isIntField] at h
    rcases h with ((h | h) | h) | (h | h) <;> subst h <;> rfl

theorem unmarshalFields_mismatch {fs : List (String × Json)} {k : String} {v : Json}
    (hmem : (k, v) ∈ fs) (hmis : typeMismatch k v = true) (a : Asset) :
    unmarshalFields a fs = .error .decodeError := by
  induction fs generalizing a with
  | nil => simp at hmem
  | cons hd tl ih =>
    obtain ⟨k0, v0⟩ := hd
    unfold unmarshalFields
    rcases List.mem_cons.mp hmem with heq | hmem'
    · obtain ⟨rfl, rfl⟩ : k = k0 ∧ v = v0 :=
        ⟨congrArg Prod.fst heq, congrArg Prod.snd heq⟩
      simp [typeMismatch_setField a hmis]
    · cases hsf : setField a k0 v0 with
      | ok a' => simpa [hsf] using ih hmem' a'
      | error e => simp [hsf, setField_error hsf]

theorem scanAssets_error {st : Store} {k : String} {v : Bytes} {e : Err}
    (hmem : (k, v) ∈ st) (hbad : unmarshalAsset v = .error e) :
    scanAssets st = .error .decodeError := by
  induction st with
  | nil => simp at hmem
  | cons hd tl ih =>
    obtain ⟨k0, v0⟩ := hd
    unfold scanAssets
    rcases List.mem_cons.mp hmem with heq | hmem'
    · obtain ⟨rfl, rfl⟩ : k = k0 ∧ v = v0 :=
        ⟨congrArg Prod.fst heq, congrArg Prod.snd heq⟩
      simp [hbad, unmarshalAsset_error hbad]
    · cases hv0 : unmarshalAsset v0 with
      | error e0 => simp [hv0, unmarshalAsset_error hv0]
      | ok a0 => simp [hv0, ih hmem']

theorem scanAssets_ok {st : Store} (h : WellFormedStore st) :
    ∃ l, scanAssets st = .ok l := by
  induction st with
  | nil => exact ⟨[], rfl⟩
  | cons hd tl ih =>
    obtain ⟨k0, v0⟩ := hd
    obtain ⟨a0, ha0⟩ := h (k0, v0) (List.mem_cons_self _ _)
    obtain ⟨l, hl⟩ := ih fun kv hkv => h kv (List.mem_cons_of_mem _ hkv)
    exact ⟨a0 :: l, by simp [scanAssets, ha0, hl]⟩

theorem wellFormed_putState {st : Store} (h : WellFormedStore st) (k : String) (a : Asset) :
    WellFormedStore (putState st k (marshalAsset a)) := by
  intro kv hkv
  rcases mem_putState hkv with heq | hkv'
  · rw [heq]
    exact ⟨a, unmarshal_marshal a⟩
  · exact h kv hkv'

theorem wellFormed_delState {st : Store} (h : WellFormedStore st) (k : String) :
    WellFormedStore (delState st k) :=
  fun kv hkv => h kv (mem_delState hkv)

theorem wellFormed_foldl (l : List Asset) (st : Store) (h : WellFormedStore st) :
    WellFormedStore (l.foldl (fun s a => putState s a.ID (marshalAsset a)) st) := by
  induction l generalizing st with
  | nil => exact h
  | cons a tl ih => exact ih _ (wellFormed_putState h a.ID a)

theorem readAsset_store (st : Store) (raw : Bytes) : (ReadAsset st raw).store = st := by
  unfold ReadAsset
  repeat' split
  all_goals rfl

theorem readAsset_noWrites (st : Store) (raw : Bytes) :
    noWrites (ReadAsset st raw).trace = true := by
  unfold ReadAsset
  repeat' split
  all_goals rfl

theorem createAsset_ok {st : Store} {raw : Bytes} {s : String}
    (h : (CreateAsset st raw).res = .ok s) :
    ∃ req, unmarshalAsset raw = .ok req ∧ getState st req.ID = none ∧
      (CreateAsset st raw).store = putState st req.ID (marshalAsset req) := by
  unfold CreateAsset at h ⊢
  cases hreq : unmarshalAsset raw with
  | error e =>
    rw [hreq] at h
    simp at h
  | ok req =>
    rw [hreq] at h
    dsimp only at h
    by_cases hex : (getState st req.ID).isSome = true
    · rw [if_pos hex] at h
      simp at h
    · refine ⟨req, rfl, ?_, ?_⟩
      · cases hg : getState st req.ID with
        | none => rfl
        | some b =>
          rw [hg] at hex
          simp at hex
      · dsimp only
        rw [if_neg hex]

/-! Claim theorems. -/

/-- Claim C9: serialization round-trips: `marshalAsset` is total by
construction (as `json.Marshal` never fails on this struct), and
unmarshalling the encoding of any `Asset` yields that asset back. -/
theorem c9_encode_decode_round_trip (a : Asset) :
    unmarshalAsset (marshalAsset a) = .ok a :=
  unmarshal_marshal a

/-- Claim C6: starting from the empty store, `InitLedger` succeeds and
`GetAllAssets` then returns exactly the six seed assets with their
specified field values, in the store's native key order. -/
theorem c6_seed_scenario :
    (InitLedger []).res = .ok () ∧
    (GetAllAssets (InitLedger []).store).res = .ok
      [⟨"asset1", "blue", 5, "Tomoko", 300⟩,
       ⟨"asset2", "red", 5, "Brad", 400⟩,
       ⟨"asset3", "green", 10, "Jin Soo", 500⟩,
       ⟨"asset4", "yellow", 10, "Max", 600⟩,
       ⟨"asset5", "black", 15, "Adriana", 700⟩,
       ⟨"asset6", "white", 15, "Michel", 800⟩] :=
  ⟨rfl, by decide⟩

/-- Claim C4: a successful `DeleteAsset` returns the status string
`"CreateAsset OK"`, the status text of `CreateAsset`, reused. -/
theorem c4_delete_returns_create_status (st : Store) (raw : Bytes) (req : Asset)
    (hreq : unmarshalAsset raw = .ok req)
    (hex : (getState st req.ID).isSome = true) :
    (DeleteAsset st raw).res = .ok "CreateAsset OK" := by
  unfold DeleteAsset
  rw [hreq]
  dsimp only
  rw [if_pos hex]

/-- Witness for C4: deleting a present asset from a concrete store. -/
theorem c4_delete_returns_create_status_witness :
    (DeleteAsset [("asset1", marshalAsset asset1Seed)]
      (Bytes.json (Json.obj [("asset_id", Json.str "asset1")]))).res = .ok "CreateAsset OK" :=
  c4_delete_returns_create_status _ _ ⟨"asset1", "", 0, "", 0⟩ rfl rfl

/-- Claim C8: a well-formed request naming an id absent from the store
makes `ReadAsset`, `UpdateAsset`, `DeleteAsset` and `TransferAsset` fail
with `NotFound` for that id, leaving the store unchanged. -/
theorem c8_missing_id_not_found (st : Store) (raw : Bytes) (req : Asset)
    (hreq : unmarshalAsset raw = .ok req)
    (habs : getState st req.ID = none) :
    ((ReadAsset st raw).res = .error (.notFound req.ID) ∧ (ReadAsset st raw).store = st) ∧
    ((UpdateAsset st raw).res = .error (.notFound req.ID) ∧ (UpdateAsset st raw).store = st) ∧
    ((DeleteAsset st raw).res = .error (.notFound req.ID) ∧ (DeleteAsset st raw).store = st) ∧
    ((TransferAsset st raw).res = .error (.notFound req.ID) ∧ (TransferAsset st raw).store = st) := by
  unfold UpdateAsset DeleteAsset TransferAsset ReadAsset
  rw [hreq]
  dsimp only
  rw [habs]
  simp

/-- Witness for C8: the four operations on an empty store. -/
theorem c8_missing_id_not_found_witness :
    ((ReadAsset [] ghostRaw).res = .error (.notFound "ghost") ∧ (ReadAsset [] ghostRaw).store = []) ∧
    ((UpdateAsset [] ghostRaw).res = .error (.notFound "ghost") ∧ (UpdateAsset [] ghostRaw).store = []) ∧
    ((DeleteAsset [] ghostRaw).res = .error (.notFound "ghost") ∧ (DeleteAsset [] ghostRaw).store = []) ∧
    ((TransferAsset [] ghostRaw).res = .error (.notFound "ghost") ∧ (TransferAsset [] ghostRaw).store = []) :=
  c8_missing_id_not_found [] ghostRaw ⟨"ghost", "", 0, "", 0⟩ rfl rfl

/-- Claim C1: a successful `TransferAsset` stores a record whose `Owner`
is the request's owner while `ID`, `Color`, `Size` and `AppraisedValue`
are those of the previously stored record, not those of the
caller-supplied request. -/
theorem c1_transfer_replaces_only_owner (st : Store) (raw : Bytes) (req a : Asset) (b : Bytes)
    (hreq : unmarshalAsset raw = .ok req)
    (hget : getState st req.ID = some b)
    (hstored : unmarshalAsset b = .ok a) :
    (TransferAsset st raw).res = .ok "TransferAsset OK" ∧
    getState (TransferAsset st raw).store req.ID =
      some (marshalAsset ⟨a.ID, a.Color, a.Size, req.Owner, a.AppraisedValue⟩) := by
  have hread : ReadAsset st raw = ⟨.ok a, st, [.get req.ID]⟩ := by
    unfold ReadAsset
    rw [hreq]
    dsimp only
    rw [hget]
    dsimp only
    rw [hstored]
  unfold TransferAsset
  rw [hreq]
  dsimp only
  rw [hget, hread]
  simp [getState_putState_self]

/-- Witness for C1: transferring the stored `asset1` to `Bob`. -/
theorem c1_transfer_replaces_only_owner_witness :
    (TransferAsset [("asset1", marshalAsset asset1Seed)] transferBobRaw).res =
      .ok "TransferAsset OK" ∧
    getState (TransferAsset [("asset1", marshalAsset asset1Seed)] transferBobRaw).store
      "asset1" = some (marshalAsset ⟨"asset1", "blue", 5, "Bob", 300⟩) :=
  c1_transfer_replaces_only_owner _ _ ⟨"asset1", "", 0, "Bob", 0⟩ asset1Seed
    (marshalAsset asset1Seed) rfl rfl rfl

/-- Claim C2: after a successful `CreateAsset`, repeating the same request
fails with `AlreadyExists` and leaves the store unchanged. -/
theorem c2_duplicate_create_rejected (st : Store) (raw : Bytes) (s : String)
    (h : (CreateAsset st raw).res = .ok s) :
    ∃ id,
      (CreateAsset (CreateAsset st raw).store raw).res = .error (.alreadyExists id) ∧
      (CreateAsset (CreateAsset st raw).store raw).store = (CreateAsset st raw).store := by
  obtain ⟨req, hreq, habs, hstore⟩ := createAsset_ok h
  have hres : CreateAsset (putState st req.ID (marshalAsset req)) raw =
      ⟨.error (.alreadyExists req.ID), putState st req.ID (marshalAsset req),
        [.get req.ID]⟩ := by
    unfold CreateAsset
    rw [hreq]
    dsimp only
    simp [getState_putState_self]
  refine ⟨req.ID, ?_, ?_⟩ <;> rw [hstore, hres]

/-- Witness for C2: creating `asset1` twice from the empty store. -/
theorem c2_duplicate_create_rejected_witness :
    ∃ id,
      (CreateAsset (CreateAsset [] asset1Raw).store asset1Raw).res =
        .error (.alreadyExists id) ∧
      (CreateAsset (CreateAsset [] asset1Raw).store asset1Raw).store =
        (CreateAsset [] asset1Raw).store :=
  c2_duplicate_create_rejected [] asset1Raw "CreateAsset OK" rfl

/-- Claim C3 counterexample: a JSON object with all five fields missing is
not rejected: it decodes to the zero-valued asset, and `CreateAsset`
accepts it, contradicting the claim that missing fields fail with
`DecodeError`. -/
theorem c3_missing_fields_counterexample :
    unmarshalAsset (Bytes.json (Json.obj [])) = .ok zeroAsset ∧
    (CreateAsset [] (Bytes.json (Json.obj []))).res = .ok "CreateAsset OK" :=
  ⟨rfl, rfl⟩

/-- Claim C3 (amended): bytes that are not valid JSON, top-level JSON
values other than an object or `null`, and objects with a mis-typed field
all fail to decode with `DecodeError`, and every request-decoding
operation rejects any payload whose decode fails with that same error;
a JSON object with missing fields, however, decodes successfully with
the missing fields at their zero values. -/
theorem c3_decode_failure_amended :
    (∀ s, unmarshalAsset (Bytes.invalid s) = .error .decodeError) ∧
    (∀ j, topLevelBad j = true → unmarshalAsset (Bytes.json j) = .error .decodeError) ∧
    (∀ fs k v, (k, v) ∈ fs → typeMismatch k v = true →
      unmarshalAsset (Bytes.json (Json.obj fs)) = .error .decodeError) ∧
    (∀ st raw e, unmarshalAsset raw = .error e →
      (CreateAsset st raw).res = .error e ∧ (ReadAsset st raw).res = .error e ∧
      (UpdateAsset st raw).res = .error e ∧ (DeleteAsset st raw).res = .error e ∧
      (TransferAsset st raw).res = .error e) := by
  refine ⟨fun s => rfl, ?_, ?_, ?_⟩
  · intro j hj
    cases j <;> first | rfl | simp [topLevelBad] at hj
  · intro fs k v hmem hmis
    exact unmarshalFields_mismatch hmem hmis zeroAsset
  · intro st raw e h
    refine ⟨?_, ?_, ?_, ?_, ?_⟩
    · unfold CreateAsset
      rw [h]
    · unfold ReadAsset
      rw [h]
    · unfold UpdateAsset
      rw [h]
    · unfold DeleteAsset
      rw [h]
    · unfold TransferAsset
      rw [h]

/-- Witness for C3 (amended): a mis-typed `size` field and a non-JSON
payload are both rejected. -/
theorem c3_decode_failure_amended_witness :
    unmarshalAsset (Bytes.json (Json.obj [("size", Json.str "big")])) = .error .decodeError ∧
    (CreateAsset [] (Bytes.invalid "not json")).res = .error .decodeError :=
  ⟨c3_decode_failure_amended.2.2.1 [("size", Json.str "big")] "size" (Json.str "big")
      (by simp) rfl,
   (c3_decode_failure_amended.2.2.2 [] (Bytes.invalid "not json") .decodeError rfl).1⟩

/-- Claim C7: when some stored value fails to unmarshal, `GetAllAssets`
surfaces the decode error and returns no asset list: every partially
accumulated result is discarded. -/
theorem c7_scan_aborts_on_bad_value (st : Store) (k : String) (v : Bytes) (e : Err)
    (hmem : (k, v) ∈ st) (hbad : unmarshalAsset v = .error e) :
    (GetAllAssets st).res = .error .decodeError ∧
    ∀ l, (GetAllAssets st).res ≠ .ok l := by
  have h : scanAssets st = .error .decodeError := scanAssets_error hmem hbad
  refine ⟨h, ?_⟩
  intro l hl
  rw [show (GetAllAssets st).res = scanAssets st from rfl, h] at hl
  cases hl

/-- Witness for C7: a store holding one good value and one undecodable
value yields no listing. -/
theorem c7_scan_aborts_on_bad_value_witness :
    (GetAllAssets [("asset1", marshalAsset asset1Seed), ("zzz", Bytes.invalid "junk")]).res =
      .error .decodeError ∧
    ∀ l, (GetAllAssets
      [("asset1", marshalAsset asset1Seed), ("zzz", Bytes.invalid "junk")]).res ≠ .ok l :=
  c7_scan_aborts_on_bad_value _ "zzz" (Bytes.invalid "junk") .decodeError (by simp) rfl

/-- Claim C5: a request whose decode fails is rejected with that error
before any store access, leaving the store unchanged with an empty stub
trace; and whenever any mutating operation fails for any reason, it has
performed no `PutState` or `DelState` and the store is unchanged, so no
write precedes its precondition check. -/
theorem c5_no_write_before_check :
    (∀ st raw e, unmarshalAsset raw = .error e →
      CreateAsset st raw = ⟨.error e, st, []⟩ ∧
      ReadAsset st raw = ⟨.error e, st, []⟩ ∧
      UpdateAsset st raw = ⟨.error e, st, []⟩ ∧
      DeleteAsset st raw = ⟨.error e, st, []⟩ ∧
      TransferAsset st raw = ⟨.error e, st, []⟩) ∧
    (∀ st raw e,
      ((CreateAsset st raw).res = .error e →
        (CreateAsset st raw).store = st ∧ noWrites (CreateAsset st raw).trace = true) ∧
      ((UpdateAsset st raw).res = .error e →
        (UpdateAsset st raw).store = st ∧ noWrites (UpdateAsset st raw).trace = true) ∧
      ((DeleteAsset st raw).res = .error e →
        (DeleteAsset st raw).store = st ∧ noWrites (DeleteAsset st raw).trace = true) ∧
      ((TransferAsset st raw).res = .error e →
        (TransferAsset st raw).store = st ∧ noWrites (TransferAsset st raw).trace = true)) := by
  constructor
  · intro st raw e h
    refine ⟨?_, ?_, ?_, ?_, ?_⟩
    · unfold CreateAsset
      rw [h]
    · unfold ReadAsset
      rw [h]
    · unfold UpdateAsset
      rw [h]
    · unfold DeleteAsset
      rw [h]
    · unfold TransferAsset
      rw [h]
  · intro st raw e
    refine ⟨?_, ?_, ?_, ?_⟩
    · intro h
      unfold CreateAsset at h ⊢
      cases hreq : unmarshalAsset raw with
      | error e' =>
        exact ⟨rfl, rfl⟩
      | ok req =>
        rw [hreq] at h
        dsimp only at h ⊢
        by_cases hex : (getState st req.ID).isSome = true
        · rw [if_pos hex]
          exact ⟨rfl, rfl⟩
        · rw [if_neg hex] at h
          simp at h
    · intro h
      unfold UpdateAsset at h ⊢
      cases hreq : unmarshalAsset raw with
      | error e' =>
        exact ⟨rfl, rfl⟩
      | ok req =>
        rw [hreq] at h
        dsimp only at h ⊢
        by_cases hex : (getState st req.ID).isSome = true
        · rw [if_pos hex] at h
          simp at h
        · rw [if_neg hex]
          exact ⟨rfl, rfl⟩
    · intro h
      unfold DeleteAsset at h ⊢
      cases hreq : unmarshalAsset raw with
      | error e' =>
        exact ⟨rfl, rfl⟩
      | ok req =>
        rw [hreq] at h
        dsimp only at h ⊢
        by_cases hex : (getState st req.ID).isSome = true
        · rw [if_pos hex] at h
          simp at h
        · rw [if_neg hex]
          exact ⟨rfl, rfl⟩
    · intro h
      unfold TransferAsset at h ⊢
      cases hreq : unmarshalAsset raw with
      | error e' =>
        exact ⟨rfl, rfl⟩
      | ok req =>
        rw [hreq] at h
        dsimp only at h ⊢
        by_cases hex : (getState st req.ID).isSome = true
        · rw [if_pos hex] at h ⊢
          cases hr : (ReadAsset st raw).res with
          | ok a =>
            simp only [hr] at h
            simp at h
          | error e0 =>
            simp only [hr]
            refine ⟨trivial, ?_⟩
            simp only [noWrites, List.all_cons, Bool.and_eq_true]
            exact ⟨trivial, readAsset_noWrites st raw⟩
        · rw [if_neg hex]
          exact ⟨rfl, rfl⟩

/-- Witness for C5: a non-JSON payload is rejected with no store access,
and a failing `UpdateAsset` performs no write. -/
theorem c5_no_write_before_check_witness :
    CreateAsset [] (Bytes.invalid "oops") = ⟨.error .decodeError, [], []⟩ ∧
    (UpdateAsset [] (Bytes.invalid "oops")).store = [] ∧
    noWrites (UpdateAsset [] (Bytes.invalid "oops")).trace = true := by
  refine ⟨(c5_no_write_before_check.1 [] (Bytes.invalid "oops") .decodeError rfl).1, ?_, ?_⟩
  · exact ((c5_no_write_before_check.2 [] (Bytes.invalid "oops") .decodeError).2.1 rfl).1
  · exact ((c5_no_write_before_check.2 [] (Bytes.invalid "oops") .decodeError).2.1 rfl).2

/-- Claim C10: every value written by `InitLedger`, `CreateAsset`,
`UpdateAsset` or `TransferAsset` is the encoding of a well-formed asset,
so store well-formedness is preserved by every operation, and on a
well-formed store `GetAllAssets` succeeds and `ReadAsset` with a
well-formed request never fails with a decode error. -/
theorem c10_store_wellformedness_invariant :
    (∀ st, WellFormedStore st → WellFormedStore (InitLedger st).store) ∧
    (∀ st raw, WellFormedStore st → WellFormedStore (CreateAsset st raw).store) ∧
    (∀ st raw, WellFormedStore st → WellFormedStore (UpdateAsset st raw).store) ∧
    (∀ st raw, WellFormedStore st → WellFormedStore (TransferAsset st raw).store) ∧
    (∀ st raw, WellFormedStore st → WellFormedStore (DeleteAsset st raw).store) ∧
    (∀ st, WellFormedStore st → ∃ l, (GetAllAssets st).res = .ok l) ∧
    (∀ st raw req, WellFormedStore st → unmarshalAsset raw = .ok req →
      (ReadAsset st raw).res ≠ .error .decodeError) := by
  refine ⟨?_, ?_, ?_, ?_, ?_, ?_, ?_⟩
  · intro st h
    exact wellFormed_foldl seedAssets st h
  · intro st raw h
    unfold CreateAsset
    cases hreq : unmarshalAsset raw with
    | error e =>
      exact h
    | ok req =>
      dsimp only
      by_cases hex : (getState st req.ID).isSome = true
      · rw [if_pos hex]
        exact h
      · rw [if_neg hex]
        exact wellFormed_putState h req.ID req
  · intro st raw h
    unfold UpdateAsset
    cases hreq : unmarshalAsset raw with
    | error e =>
      exact h
    | ok req =>
      dsimp only
      by_cases hex : (getState st req.ID).isSome = true
      · rw [if_pos hex]
        exact wellFormed_putState h req.ID req
      · rw [if_neg hex]
        exact h
  · intro st raw h
    unfold TransferAsset
    cases hreq : unmarshalAsset raw with
    | error e =>
      exact h
    | ok req =>
      dsimp only
      by_cases hex : (getState st req.ID).isSome = true
      · rw [if_pos hex]
        cases hr : (ReadAsset st raw).res with
        | error e0 =>
          simp only [hr]
          exact h
        | ok a =>
          simp only [hr]
          exact wellFormed_putState h req.ID _
      · rw [if_neg hex]
        exact h
  · intro st raw h
    unfold DeleteAsset
    cases hreq : unmarshalAsset raw with
    | error e =>
      exact h
    | ok req =>
      dsimp only
      by_cases hex : (getState st req.ID).isSome = true
      · rw [if_pos hex]
        exact wellFormed_delState h req.ID
      · rw [if_neg hex]
        exact h
  · intro st h
    exact scanAssets_ok h
  · intro st raw req h hreq
    unfold ReadAsset
    rw [hreq]
    dsimp only
    cases hg : getState st req.ID with
    | none => simp
    | some b =>
      obtain ⟨a, ha⟩ := h (req.ID, b) (getState_mem hg)
      dsimp only at ha ⊢
      rw [ha]
      simp

/-- Witness for C10: the seed store is well-formed and listable. -/
theorem c10_store_wellformedness_invariant_witness :
    WellFormedStore (InitLedger []).store ∧
    ∃ l, (GetAllAssets (InitLedger []).store).res = .ok l := by
  have h0 : WellFormedStore ([] : Store) := fun kv hkv => absurd hkv (List.not_mem_nil kv)
  have h1 := c10_store_wellformedness_invariant.1 [] h0
  exact ⟨h1, c10_store_wellformedness_invariant.2.2.2.2.2.1 _ h1⟩

end Chaincode
